import Mathlib

/-!
# Verification of the climate dashboard's selection & aggregation engine

Shallow embedding of the core logic of `climate_dashboard.py`:
ranking countries by mean year-over-year temperature change, the
per-entity / per-category selection decision, group-by-mean category
aggregation, and the ordinary least squares regression.

Numeric values are modelled by an arbitrary `DivisionRing`
(instantiated at `ℚ` for the executable development and at `ℝ` where the
`log1p` display transform matters); pandas missing values (`NaN`) are
modelled by `Option`.
-/

namespace Climate

/-- One country-year row of the loaded CSV: columns
`Country`, `Income group`, `Year`, `MeanTemp`, `CO2_kt`.
A metric column holds `none` where the CSV value is missing (NaN). -/
structure Record (α : Type) where
  country : String
  income : String
  year : Int
  meanTemp : Option α
  co2 : Option α
deriving DecidableEq, Repr

/-- A pandas DataFrame with the five relevant columns. -/
abbrev Table (α : Type) := List (Record α)

variable {α : Type}

/-- `final_df.query("Year >= @year_min and Year <= @year_max")`. -/
def windowed (t : Table α) (y1 y2 : Int) : Table α :=
  t.filter fun r => decide (y1 ≤ r.year ∧ r.year ≤ y2)

/-- `df_filtered`: window filter plus `Country.isin(selected_countries)`. -/
def df_filtered (t : Table α) (y1 y2 : Int) (sel : List String) : Table α :=
  t.filter fun r => decide (y1 ≤ r.year ∧ r.year ≤ y2) && sel.contains r.country

/-- Row comparison used by `sort_values(["Country","Year"])` within one country. -/
def yearLe (a b : Record α) : Prop := a.year ≤ b.year

instance : DecidableRel (yearLe (α := α)) := fun a b => Int.decLe a.year b.year

instance : IsTotal (Record α) yearLe := ⟨fun a b => Int.le_total a.year b.year⟩

instance : IsTrans (Record α) yearLe := ⟨fun _ _ _ h h2 => le_trans h h2⟩

/-- One country's in-window rows, sorted by year ascending
(the country-group of `rank_src` after `sort_values(["Country","Year"])`). -/
def entityRows (t : Table α) (y1 y2 : Int) (c : String) : Table α :=
  List.insertionSort yearLe ((windowed t y1 y2).filter fun r => decide (r.country = c))

/-- The non-NaN entries of the `temp_change` column for one country:
`groupby("Country")["MeanTemp"].diff()` gives NaN on the first row of the
group and whenever either neighbouring `MeanTemp` is NaN; the rest are the
consecutive differences. -/
def someDiffs [Sub α] (rows : Table α) : List α :=
  (rows.zip rows.tail).filterMap fun p =>
    match p.1.meanTemp, p.2.meanTemp with
    | some a, some b => some (b - a)
    | _, _ => none

/-- Mean of a list, `none` on the empty list (pandas `mean()` of an
all-NaN / empty group is NaN). -/
def meanOpt [DivisionRing α] (l : List α) : Option α :=
  if l.length = 0 then none else some (l.sum / (l.length : α))

/-- One country's entry of
`rank_src.groupby("Country")["temp_change"].mean()`:
NaN entries of `temp_change` are skipped, an all-NaN group gives NaN. -/
def entityScore (t : Table ℚ) (y1 y2 : Int) (c : String) : Option ℚ :=
  meanOpt (someDiffs (entityRows t y1 y2 c))

/-- The group keys of `groupby("Country")`: the distinct countries of the
windowed frame, sorted ascending. -/
def windowCountries (t : Table α) (y1 y2 : Int) : List String :=
  List.insertionSort (· ≤ ·) ((windowed t y1 y2).map (·.country)).dedup

/-- Comparison used to model `sort_values(ascending=False)` on scores. -/
def scoreGe (p q : String × ℚ) : Prop := q.2 ≤ p.2

instance : DecidableRel scoreGe := fun p q => Rat.instDecidableLe q.2 p.2

instance : IsTotal (String × ℚ) scoreGe := ⟨fun p q => (le_total q.2 p.2)⟩

instance : IsTrans (String × ℚ) scoreGe := ⟨fun _ _ _ h h2 => le_trans h2 h⟩

/-- `rank_src.groupby("Country")["temp_change"].mean().dropna()`: the
(country, score) pairs of countries whose score is not NaN, in ascending
country order. -/
def rankBase (t : Table ℚ) (y1 y2 : Int) : List (String × ℚ) :=
  (windowCountries t y1 y2).filterMap fun c =>
    (entityScore t y1 y2 c).map fun s => (c, s)

/-- `rank = rank_src.groupby("Country")["temp_change"].mean().dropna()
.sort_values(ascending=False)`: the (country, score) pairs of countries
whose score is not NaN, sorted by score descending. -/
def rank (t : Table ℚ) (y1 y2 : Int) : List (String × ℚ) :=
  List.insertionSort scoreGe (rankBase t y1 y2)

/-- `rank.index`: the ranked countries, best warming rate first. -/
def rankIndex (t : Table ℚ) (y1 y2 : Int) : List String :=
  (rank t y1 y2).map Prod.fst

/-- `too_many = len(selected_countries) > max_countries`. -/
def too_many (sel : List String) (maxc : Nat) : Bool :=
  decide (maxc < sel.length)

/-- `use_income_lines = auto_aggregate and too_many` (the same condition
guards the scatter's aggregation branch). -/
def use_income_lines (auto : Bool) (sel : List String) (maxc : Nat) : Bool :=
  auto && too_many sel maxc

/-- `topN = [c for c in rank.index if c in selected_countries][:max_countries]`. -/
def topN (t : Table ℚ) (y1 y2 : Int) (sel : List String) (maxc : Nat) : List String :=
  ((rankIndex t y1 y2).filter fun c => sel.contains c).take maxc

/-- Lexicographic comparison on the `(Year, Income group)` group keys,
the order `groupby(["Year","Income group"])` emits its groups in. -/
def keyLe (a b : Int × String) : Prop :=
  a.1 < b.1 ∨ (a.1 = b.1 ∧ a.2 ≤ b.2)

instance : DecidableRel keyLe := fun a b => by
  unfold keyLe; infer_instance

instance : IsTotal (Int × String) keyLe := ⟨by
  intro a b
  rcases lt_trichotomy a.1 b.1 with h | h | h
  · exact Or.inl (Or.inl h)
  · rcases le_total a.2 b.2 with h2 | h2
    · exact Or.inl (Or.inr ⟨h, h2⟩)
    · exact Or.inr (Or.inr ⟨h.symm, h2⟩)
  · exact Or.inr (Or.inl h)⟩

instance : IsTrans (Int × String) keyLe := ⟨by
  intro a b c hab hbc
  rcases hab with h | ⟨he, h2⟩
  · rcases hbc with h3 | ⟨he3, _⟩
    · exact Or.inl (h.trans h3)
    · exact Or.inl (he3 ▸ h)
  · rcases hbc with h3 | ⟨he3, h4⟩
    · exact Or.inl (he ▸ h3)
    · exact Or.inr ⟨he.trans he3, h2.trans h4⟩⟩

/-- The sorted distinct `(Year, Income group)` keys of a frame. -/
def groupKeys (t : Table α) : List (Int × String) :=
  List.insertionSort keyLe ((t.map fun r => (r.year, r.income)).dedup)

/-- The rows of one `(Year, Income group)` group. -/
def groupRows (t : Table α) (k : Int × String) : Table α :=
  t.filter fun r => decide (r.year = k.1 ∧ r.income = k.2)

/-- `grouped_ct = df_filtered.groupby(["Year","Income group"])["MeanTemp"]
.mean().reset_index()`: one row per observed key, mean skipping NaN. -/
def grouped_ct (t : Table ℚ) (y1 y2 : Int) (sel : List String) :
    List (Int × String × Option ℚ) :=
  (groupKeys (df_filtered t y1 y2 sel)).map fun k =>
    (k.1, k.2, meanOpt ((groupRows (df_filtered t y1 y2 sel) k).filterMap (·.meanTemp)))

/-- `plot_df = df_filtered.dropna(subset=["MeanTemp","CO2_kt"])`:
rows missing either metric are dropped entirely. -/
def plot_df (t : Table α) (y1 y2 : Int) (sel : List String) : Table α :=
  (df_filtered t y1 y2 sel).filter fun r => r.meanTemp.isSome && r.co2.isSome

/-- `agg_sc = plot_df.groupby(["Year","Income group"]).agg(
MeanTemp=("MeanTemp","mean"), CO2_plot=("CO2_plot","mean")).reset_index()`,
where `CO2_plot` is the display-transformed CO₂ column
(`np.log1p(CO2_kt)` when `use_log` else `CO2_kt`); the transform is the
`transform` argument. -/
def agg_sc [DivisionRing α] (transform : α → α) (t : Table α) (y1 y2 : Int)
    (sel : List String) : List (Int × String × Option α × Option α) :=
  (groupKeys (plot_df t y1 y2 sel)).map fun k =>
    (k.1, k.2,
     meanOpt ((groupRows (plot_df t y1 y2 sel) k).filterMap (·.meanTemp)),
     meanOpt ((groupRows (plot_df t y1 y2 sel) k).filterMap fun r => r.co2.map transform))

/-- `reg_df = df_filtered.dropna(subset=["MeanTemp","CO2_kt"])`. -/
def reg_df (t : Table ℚ) (y1 y2 : Int) (sel : List String) : Table ℚ :=
  (df_filtered t y1 y2 sel).filter fun r => r.meanTemp.isSome && r.co2.isSome

/-- The `(X, y) = (CO2_kt, MeanTemp)` pairs handed to `LinearRegression`. -/
def fitXY (t : Table ℚ) (y1 y2 : Int) (sel : List String) : List (ℚ × ℚ) :=
  (reg_df t y1 y2 sel).map fun r => (r.co2.getD 0, r.meanTemp.getD 0)

/-- `LinearRegression().fit(X, y)`: closed-form least squares
`slope = (n·Σxy − Σx·Σy) / (n·Σx² − (Σx)²)`,
`intercept = (Σy − slope·Σx) / n`; when the denominator vanishes
(all x equal) sklearn's minimum-norm solution has slope 0. -/
def linfit (l : List (ℚ × ℚ)) : ℚ × ℚ :=
  let n : ℚ := l.length
  let sx := (l.map Prod.fst).sum
  let sy := (l.map Prod.snd).sum
  let sxx := (l.map fun p => p.1 * p.1).sum
  let sxy := (l.map fun p => p.1 * p.2).sum
  let d := n * sxx - sx * sx
  let a := if d = 0 then 0 else (n * sxy - sx * sy) / d
  (a, (sy - a * sx) / n)

/-- The regression block: `if not reg_df.empty: model = ... .fit(X, y)`
`else: st.warning("Not enough data ...")`.  `none` is the
insufficient-data warning path. -/
def regression (t : Table ℚ) (y1 y2 : Int) (sel : List String) : Option (ℚ × ℚ) :=
  if (reg_df t y1 y2 sel).isEmpty then none else some (linfit (fitXY t y1 y2 sel))

/-- Sum of squared residuals of the line `y = a·x + b` over the data
(the objective ordinary least squares minimizes). -/
def rss (a b : ℚ) (l : List (ℚ × ℚ)) : ℚ :=
  (l.map fun p => (p.2 - a * p.1 - b) ^ 2).sum

/-- Everything one interaction computes, as a function of the display
transform (the only place `use_log` enters the computations). -/
structure ViewModel where
  rankPairs : List (String × ℚ)
  categoryMode : Bool
  selection : List String
  groupedTemps : List (Int × String × Option ℚ)
  scatterAgg : List (Int × String × Option ℚ × Option ℚ)
  fit : Option (ℚ × ℚ)
deriving DecidableEq, Repr

/-- One full recomputation pass of the dashboard. -/
def runDashboard (t : Table ℚ) (y1 y2 : Int) (sel : List String) (maxc : Nat)
    (auto : Bool) (transform : ℚ → ℚ) : ViewModel :=
  { rankPairs := rank t y1 y2
    categoryMode := use_income_lines auto sel maxc
    selection := topN t y1 y2 sel maxc
    groupedTemps := grouped_ct t y1 y2 sel
    scatterAgg := agg_sc transform t y1 y2 sel
    fit := regression t y1 y2 sel }

/-- `np.log1p` on the reals. -/
noncomputable def log1p (x : ℝ) : ℝ := Real.log (1 + x)

/-- The crafted dataset of spec §8: entity A has temperatures
[1.0, 1.2, 1.5] over 2000-2002 (score 0.25) and entity B has
[1.0, 0.9, 0.8] (score -0.1). -/
def tblSpec : Table ℚ :=
  [⟨"A", "L", 2000, some 1, some 1⟩,
   ⟨"A", "L", 2001, some (12/10), some 2⟩,
   ⟨"A", "L", 2002, some (15/10), some 3⟩,
   ⟨"B", "H", 2000, some 1, some 1⟩,
   ⟨"B", "H", 2001, some (9/10), some 2⟩,
   ⟨"B", "H", 2002, some (8/10), some 3⟩]

/-- A table whose only entity has a single (in-window) record. -/
def tblOne : Table ℚ := [⟨"A", "L", 2000, some 2, some 3⟩]

/-- The spec §8 aggregation example: rows
[(2000,"Low",10),(2000,"Low",20),(2000,"High",5)]. -/
def tblAgg : Table ℚ :=
  [⟨"A", "Low", 2000, some 10, some 0⟩,
   ⟨"B", "Low", 2000, some 20, some 0⟩,
   ⟨"C", "High", 2000, some 5, some 0⟩]

/-- A record missing CO₂ but with a temperature (entity A), next to a
fully observed record (entity B) in the same (year, income) group. -/
def tblMiss : Table ℚ :=
  [⟨"A", "L", 2000, some 7, none⟩,
   ⟨"B", "L", 2000, some 1, some 1⟩]

/-- A one-row real-valued table with CO₂ = 1, whose log1p display
transform is log 2. -/
noncomputable def tblLog : Table ℝ := [⟨"A", "L", 2000, some 0, some 1⟩]

/-! ## Structural lemmas about the ranking -/

theorem map_fst_filterMap_score (l : List String) (f : String → Option ℚ) :
    (l.filterMap fun c => (f c).map fun s => (c, s)).map Prod.fst =
      l.filter fun c => (f c).isSome := by
  induction l with
  | nil => rfl
  | cons c l ih =>
    cases h : f c <;>
      simp [List.filterMap_cons, List.filter_cons, h, ih]

theorem windowCountries_perm (t : Table α) (y1 y2 : Int) :
    (windowCountries t y1 y2).Perm ((windowed t y1 y2).map (·.country)).dedup :=
  List.perm_insertionSort _ _

theorem windowCountries_nodup (t : Table α) (y1 y2 : Int) :
    (windowCountries t y1 y2).Nodup :=
  ((windowCountries_perm t y1 y2).nodup_iff).mpr (List.nodup_dedup _)

theorem mem_windowCountries (t : Table α) (y1 y2 : Int) (c : String) :
    c ∈ windowCountries t y1 y2 ↔ ∃ r ∈ windowed t y1 y2, r.country = c := by
  rw [(windowCountries_perm t y1 y2).mem_iff, List.mem_dedup, List.mem_map]

theorem rank_perm_rankBase (t : Table ℚ) (y1 y2 : Int) :
    (rank t y1 y2).Perm (rankBase t y1 y2) :=
  List.perm_insertionSort _ _

theorem mem_rank (t : Table ℚ) (y1 y2 : Int) (p : String × ℚ) :
    p ∈ rank t y1 y2 ↔
      p.1 ∈ windowCountries t y1 y2 ∧ entityScore t y1 y2 p.1 = some p.2 := by
  rw [(rank_perm_rankBase t y1 y2).mem_iff]
  unfold rankBase
  rw [List.mem_filterMap]
  constructor
  · rintro ⟨c, hc, hmap⟩
    cases h : entityScore t y1 y2 c with
    | none => rw [h] at hmap; simp at hmap
    | some s =>
      rw [h] at hmap
      simp only [Option.map_some', Option.some.injEq] at hmap
      subst hmap
      exact ⟨hc, h⟩
  · rintro ⟨hc, hs⟩
    exact ⟨p.1, hc, by rw [hs]; simp⟩

theorem rankIndex_eq_filter (t : Table ℚ) (y1 y2 : Int) :
    (rankBase t y1 y2).map Prod.fst =
      (windowCountries t y1 y2).filter fun c => (entityScore t y1 y2 c).isSome :=
  map_fst_filterMap_score _ _

theorem rankIndex_nodup (t : Table ℚ) (y1 y2 : Int) :
    (rankIndex t y1 y2).Nodup := by
  have hperm : (rankIndex t y1 y2).Perm ((rankBase t y1 y2).map Prod.fst) :=
    (rank_perm_rankBase t y1 y2).map Prod.fst
  rw [hperm.nodup_iff, rankIndex_eq_filter]
  exact (windowCountries_nodup t y1 y2).filter _

theorem mem_rankIndex (t : Table ℚ) (y1 y2 : Int) (c : String) :
    c ∈ rankIndex t y1 y2 ↔
      c ∈ windowCountries t y1 y2 ∧ (entityScore t y1 y2 c).isSome := by
  unfold rankIndex
  constructor
  · rintro hc
    rcases List.mem_map.mp hc with ⟨p, hp, rfl⟩
    rcases (mem_rank t y1 y2 p).mp hp with ⟨h1, h2⟩
    exact ⟨h1, by rw [h2]; rfl⟩
  · rintro ⟨h1, h2⟩
    rcases Option.isSome_iff_exists.mp h2 with ⟨s, hs⟩
    exact List.mem_map.mpr ⟨(c, s), (mem_rank t y1 y2 (c, s)).mpr ⟨h1, hs⟩, rfl⟩

theorem rank_sorted (t : Table ℚ) (y1 y2 : Int) :
    List.Sorted scoreGe (rank t y1 y2) :=
  List.sorted_insertionSort _ _

theorem pairwise_rankIndex (t : Table ℚ) (y1 y2 : Int) :
    List.Pairwise
      (fun a b => (entityScore t y1 y2 b).getD 0 ≤ (entityScore t y1 y2 a).getD 0)
      (rankIndex t y1 y2) := by
  unfold rankIndex
  rw [List.pairwise_map]
  refine (rank_sorted t y1 y2).imp_of_mem ?_
  intro p q hp hq hpq
  rcases (mem_rank t y1 y2 p).mp hp with ⟨-, hsp⟩
  rcases (mem_rank t y1 y2 q).mp hq with ⟨-, hsq⟩
  rw [hsp, hsq]
  exact hpq

theorem topN_sublist (t : Table ℚ) (y1 y2 : Int) (sel : List String) (maxc : Nat) :
    (topN t y1 y2 sel maxc).Sublist (rankIndex t y1 y2) :=
  (List.take_sublist _ _).trans (List.filter_sublist _)

/-! ## Claims about the selection decision -/

/-- C3: the dashboard switches to category (income-group) aggregation
exactly when `auto_aggregate` is set and more countries are requested
than `max_countries`; when the request fits within `max_countries` it
stays in per-entity mode regardless of `auto_aggregate`. -/
theorem use_income_lines_iff (auto : Bool) (sel : List String) (maxc : Nat) :
    (use_income_lines auto sel maxc = true ↔ auto = true ∧ maxc < sel.length) ∧
      (sel.length ≤ maxc → use_income_lines auto sel maxc = false) := by
  constructor
  · simp [use_income_lines, too_many]
  · intro h
    simp [use_income_lines, too_many, Nat.not_lt.mpr h]

/-- Witness for C3 at concrete inputs. -/
theorem use_income_lines_iff_witness :
    (use_income_lines true ["A", "B"] 1 = true ↔ True ∧ (1 : Nat) < 2) ∧
      ((["A", "B"] : List String).length ≤ 3 →
        use_income_lines true ["A", "B"] 3 = false) := by
  constructor
  · have h := (use_income_lines_iff true ["A", "B"] 1).1
    simpa using h
  · intro h
    exact (use_income_lines_iff true ["A", "B"] 3).2 h

/-- C2: in per-entity mode the selected countries are always a subset of
the requested ones, never more than `max_countries` of them, each has a
rank score, and they come in descending order of rank score. -/
theorem topN_spec (t : Table ℚ) (y1 y2 : Int) (sel : List String) (maxc : Nat) :
    (∀ c ∈ topN t y1 y2 sel maxc, c ∈ sel) ∧
      (topN t y1 y2 sel maxc).length ≤ maxc ∧
      (∀ c ∈ topN t y1 y2 sel maxc, (entityScore t y1 y2 c).isSome) ∧
      List.Pairwise
        (fun a b =>
          (entityScore t y1 y2 b).getD 0 ≤ (entityScore t y1 y2 a).getD 0)
        (topN t y1 y2 sel maxc) := by
  refine ⟨?_, ?_, ?_, ?_⟩
  · intro c hc
    have hmem : c ∈ (rankIndex t y1 y2).filter fun c => sel.contains c :=
      List.mem_of_mem_take hc
    simpa using List.of_mem_filter hmem
  · exact List.length_take_le _ _
  · intro c hc
    exact ((mem_rankIndex t y1 y2 c).mp ((topN_sublist t y1 y2 sel maxc).mem hc)).2
  · exact (pairwise_rankIndex t y1 y2).sublist (topN_sublist t y1 y2 sel maxc)

/-! ## The rank score is the mean of consecutive year-over-year diffs -/

theorem length_filterMap_meanTemp (rows : Table ℚ)
    (hp : ∀ r ∈ rows, r.meanTemp.isSome) :
    (rows.filterMap (·.meanTemp)).length = rows.length := by
  induction rows with
  | nil => rfl
  | cons r rest ih =>
    rcases Option.isSome_iff_exists.mp (hp r (List.mem_cons_self r rest)) with ⟨a, ha⟩
    simp [List.filterMap_cons, ha, ih fun x hx => hp x (List.mem_cons_of_mem r hx)]

theorem someDiffs_eq_zip (rows : Table ℚ)
    (hp : ∀ r ∈ rows, r.meanTemp.isSome) :
    someDiffs rows =
      (((rows.filterMap (·.meanTemp)).zip (rows.filterMap (·.meanTemp)).tail).map
        fun p => p.2 - p.1) := by
  induction rows with
  | nil => rfl
  | cons r rest ih =>
    rcases Option.isSome_iff_exists.mp (hp r (List.mem_cons_self r rest)) with ⟨a, ha⟩
    cases rest with
    | nil => simp [someDiffs, ha]
    | cons r2 rest2 =>
      rcases Option.isSome_iff_exists.mp (hp r2 (by simp)) with ⟨b, hb⟩
      have ih2 := ih fun x hx => hp x (List.mem_cons_of_mem r hx)
      simp only [someDiffs, List.zip_cons_cons, List.filterMap_cons, ha, hb,
        List.tail_cons, List.map_cons] at ih2 ⊢
      exact congrArg _ ih2

theorem someDiffs_ne_nil (rows : Table ℚ) (h : someDiffs rows ≠ []) :
    2 ≤ rows.length := by
  match rows with
  | [] => exact absurd rfl h
  | [r] => exact absurd rfl h
  | r :: r2 :: rest => simp

theorem entityRows_perm (t : Table ℚ) (y1 y2 : Int) (c : String) :
    (entityRows t y1 y2 c).Perm
      ((windowed t y1 y2).filter fun r => decide (r.country = c)) :=
  List.perm_insertionSort _ _

/-- C1: an entity with at least two in-window records (all with observed
temperatures) gets exactly the arithmetic mean of its consecutive
year-ordered temperature differences as rank score, and an entity with
fewer than two in-window records is dropped from the ranking, not given
score 0. -/
theorem rank_score_spec (t : Table ℚ) (y1 y2 : Int) (c : String) :
    (∀ ds : List ℚ,
        ds = ((((entityRows t y1 y2 c).filterMap (·.meanTemp)).zip
              ((entityRows t y1 y2 c).filterMap (·.meanTemp)).tail).map
              fun p => p.2 - p.1) →
        2 ≤ (entityRows t y1 y2 c).length →
        (∀ r ∈ entityRows t y1 y2 c, r.meanTemp.isSome) →
        entityScore t y1 y2 c = some (ds.sum / (ds.length : ℚ)) ∧
          (c, ds.sum / (ds.length : ℚ)) ∈ rank t y1 y2) ∧
    (((windowed t y1 y2).filter fun r => decide (r.country = c)).length < 2 →
      c ∉ rankIndex t y1 y2) := by
  constructor
  · rintro ds rfl h2 hp
    have hd := someDiffs_eq_zip (entityRows t y1 y2 c) hp
    have hlenv : ((entityRows t y1 y2 c).filterMap (·.meanTemp)).length =
        (entityRows t y1 y2 c).length := length_filterMap_meanTemp _ hp
    have hlen : (someDiffs (entityRows t y1 y2 c)).length =
        (entityRows t y1 y2 c).length - 1 := by
      rw [hd]
      simp [List.length_zip, hlenv]
    have hne : (someDiffs (entityRows t y1 y2 c)).length ≠ 0 := by omega
    have hscore : entityScore t y1 y2 c =
        some ((someDiffs (entityRows t y1 y2 c)).sum /
          ((someDiffs (entityRows t y1 y2 c)).length : ℚ)) := by
      unfold entityScore meanOpt
      rw [if_neg hne]
    rw [hd] at hscore
    refine ⟨hscore, (mem_rank t y1 y2 _).mpr ⟨?_, hscore⟩⟩
    have hrow : ∃ r, r ∈ entityRows t y1 y2 c := by
      cases h : entityRows t y1 y2 c with
      | nil => rw [h] at h2; simp at h2
      | cons r rest => exact ⟨r, h ▸ List.mem_cons_self r rest⟩
    rcases hrow with ⟨r, hr⟩
    have hr2 := (entityRows_perm t y1 y2 c).mem_iff.mp hr
    refine (mem_windowCountries t y1 y2 c).mpr
      ⟨r, List.mem_of_mem_filter hr2, ?_⟩
    have := List.of_mem_filter hr2
    exact of_decide_eq_true this
  · intro hlt hc
    rcases (mem_rankIndex t y1 y2 c).mp hc with ⟨-, hs⟩
    have hne : someDiffs (entityRows t y1 y2 c) ≠ [] := by
      intro h
      unfold entityScore meanOpt at hs
      rw [h] at hs
      simp at hs
    have h2 := someDiffs_ne_nil _ hne
    have := (entityRows_perm t y1 y2 c).length_eq
    omega

/-- Witness for C1 at the spec §8 dataset: entity A (temperatures
1, 1.2, 1.5) has score (0.2 + 0.3) / 2 = 1/4, and entity C, absent from
the window, is absent from the ranking. -/
theorem rank_score_spec_witness :
    (entityScore tblSpec 2000 2002 "A" =
      some
        (((((entityRows tblSpec 2000 2002 "A").filterMap (·.meanTemp)).zip
            ((entityRows tblSpec 2000 2002 "A").filterMap (·.meanTemp)).tail).map
            fun p => p.2 - p.1).sum /
          (((((entityRows tblSpec 2000 2002 "A").filterMap (·.meanTemp)).zip
            ((entityRows tblSpec 2000 2002 "A").filterMap (·.meanTemp)).tail).map
            fun p => p.2 - p.1).length : ℚ)) ∧
      entityScore tblSpec 2000 2002 "A" = some (1/4)) ∧
    "C" ∉ rankIndex tblSpec 2000 2002 := by
  refine ⟨⟨((rank_score_spec tblSpec 2000 2002 "A").1 _ rfl (by decide) (by decide)).1, ?_⟩,
    (rank_score_spec tblSpec 2000 2002 "C").2 (by decide)⟩
  norm_num [entityScore, entityRows, windowed, tblSpec, someDiffs, meanOpt,
    List.insertionSort, List.orderedInsert, yearLe, List.filterMap_cons]

/-- Witness for C2 at the spec §8 dataset. -/
theorem topN_spec_witness :
    (∀ c ∈ topN tblSpec 2000 2002 ["A", "B"] 8, c ∈ ["A", "B"]) ∧
      (topN tblSpec 2000 2002 ["A", "B"] 8).length ≤ 8 ∧
      (∀ c ∈ topN tblSpec 2000 2002 ["A", "B"] 8,
        (entityScore tblSpec 2000 2002 c).isSome) ∧
      List.Pairwise
        (fun a b =>
          (entityScore tblSpec 2000 2002 b).getD 0 ≤
            (entityScore tblSpec 2000 2002 a).getD 0)
        (topN tblSpec 2000 2002 ["A", "B"] 8) :=
  topN_spec tblSpec 2000 2002 ["A", "B"] 8

/-! ## Selection with few requested entities (C4) -/

/-- C4 counterexample: entity A is requested, the request (1 entity) is
smaller than `max_countries` (3) and the dashboard is in per-entity mode,
yet A is not included in the selection, because its single in-window
record gives it no rank score. -/
theorem topN_drops_unranked_requested :
    (["A"] : List String).length < 3 ∧ "A" ∈ (["A"] : List String) ∧
      use_income_lines true ["A"] 3 = false ∧
      "A" ∉ topN tblOne 2000 2000 ["A"] 3 := by
  decide

theorem mem_topN_of_lt (t : Table ℚ) (y1 y2 : Int) (sel : List String)
    (maxc : Nat) (hlt : sel.length < maxc) {e : String} (he : e ∈ sel)
    (hrank : e ∈ rankIndex t y1 y2) : e ∈ topN t y1 y2 sel maxc := by
  have hnodup : ((rankIndex t y1 y2).filter fun c => sel.contains c).Nodup :=
    (rankIndex_nodup t y1 y2).filter _
  have hsub : ((rankIndex t y1 y2).filter fun c => sel.contains c) ⊆ sel := by
    intro x hx
    simpa using List.of_mem_filter hx
  have hlen : ((rankIndex t y1 y2).filter fun c => sel.contains c).length ≤
      sel.length := (List.subperm_of_subset hnodup hsub).length_le
  have hmem : e ∈ (rankIndex t y1 y2).filter fun c => sel.contains c :=
    List.mem_filter.mpr ⟨hrank, by simpa using he⟩
  unfold topN
  rw [List.take_of_length_le (by omega)]
  exact hmem

theorem b_mem_rankIndex_tblSpec : "B" ∈ rankIndex tblSpec 2000 2002 :=
  (mem_rankIndex tblSpec 2000 2002 "B").mpr
    ⟨(mem_windowCountries tblSpec 2000 2002 "B").mpr
      ⟨⟨"B", "H", 2000, some 1, some 1⟩, by decide, rfl⟩, by decide⟩

theorem a_mem_rankIndex_tblSpec : "A" ∈ rankIndex tblSpec 2000 2002 :=
  (mem_rankIndex tblSpec 2000 2002 "A").mpr
    ⟨(mem_windowCountries tblSpec 2000 2002 "A").mpr
      ⟨⟨"A", "L", 2000, some 1, some 1⟩, by decide, rfl⟩, by decide⟩

/-- C4 amended: in per-entity mode, if the requested entity set is
smaller than `max_countries`, every requested entity that appears in the
ranking is included, and the selection is in rank order (a subsequence of
the ranking), not request order. -/
theorem topN_includes_ranked_requested (t : Table ℚ) (y1 y2 : Int)
    (sel : List String) (maxc : Nat) :
    (sel.length < maxc →
      ∀ e ∈ sel, e ∈ rankIndex t y1 y2 → e ∈ topN t y1 y2 sel maxc) ∧
      (topN t y1 y2 sel maxc).Sublist (rankIndex t y1 y2) :=
  ⟨fun hlt e he hrank => mem_topN_of_lt t y1 y2 sel maxc hlt he hrank,
    topN_sublist t y1 y2 sel maxc⟩

/-- Witness for the amended C4 at the spec §8 dataset. -/
theorem topN_includes_ranked_requested_witness :
    "B" ∈ topN tblSpec 2000 2002 ["B"] 3 :=
  (topN_includes_ranked_requested tblSpec 2000 2002 ["B"] 3).1 (by decide)
    "B" (by decide) b_mem_rankIndex_tblSpec

/-! ## The regression's insufficient-data guard (C5) -/

/-- C5 counterexample: a single paired observation (one x value, fewer
than 2 distinct x) does not make the dashboard signal insufficient data;
it fits anyway and reports the degenerate slope-0 result (0, 2). -/
theorem regression_single_point :
    (fitXY tblOne 2000 2000 ["A"]).length = 1 ∧
      regression tblOne 2000 2000 ["A"] = some (0, 2) := by
  constructor
  · decide
  · norm_num [regression, reg_df, df_filtered, fitXY, linfit, tblOne, windowed]

/-- C5 amended: the regression block fits exactly when the filtered
paired observations are non-empty, and signals insufficient data
(`st.warning`, here `none`) exactly when they are empty; non-emptiness,
not two distinct x values, is the only guard. -/
theorem regression_insufficient (t : Table ℚ) (y1 y2 : Int) (sel : List String) :
    (regression t y1 y2 sel = none ↔ reg_df t y1 y2 sel = []) ∧
      (reg_df t y1 y2 sel ≠ [] →
        regression t y1 y2 sel = some (linfit (fitXY t y1 y2 sel))) := by
  constructor
  · unfold regression
    rcases h : reg_df t y1 y2 sel with - | ⟨r, rest⟩ <;> simp [h]
  · intro h
    unfold regression
    rw [if_neg (by simpa [List.isEmpty_iff] using h)]

/-- Witness for the amended C5: a non-empty `reg_df` is fitted. -/
theorem regression_insufficient_witness :
    regression tblOne 2000 2000 ["A"] = some (linfit (fitXY tblOne 2000 2000 ["A"])) :=
  (regression_insufficient tblOne 2000 2000 ["A"]).2 (by decide)

/-! ## Category aggregation (C6) -/

theorem groupKeys_sorted (t : Table α) : List.Sorted keyLe (groupKeys t) :=
  List.sorted_insertionSort _ _

theorem groupKeys_perm (t : Table α) :
    (groupKeys t).Perm (t.map fun r => (r.year, r.income)).dedup :=
  List.perm_insertionSort _ _

theorem groupKeys_nodup (t : Table α) : (groupKeys t).Nodup :=
  (groupKeys_perm t).nodup_iff.mpr (List.nodup_dedup _)

theorem mem_groupKeys (t : Table α) (k : Int × String) :
    k ∈ groupKeys t ↔ ∃ r ∈ t, r.year = k.1 ∧ r.income = k.2 := by
  rw [(groupKeys_perm t).mem_iff, List.mem_dedup, List.mem_map]
  constructor
  · rintro ⟨r, hr, rfl⟩
    exact ⟨r, hr, rfl, rfl⟩
  · rintro ⟨r, hr, h1, h2⟩
    exact ⟨r, hr, by rw [h1, h2]⟩

theorem grouped_ct_keys (t : Table ℚ) (y1 y2 : Int) (sel : List String) :
    (grouped_ct t y1 y2 sel).map (fun g => (g.1, g.2.1)) =
      groupKeys (df_filtered t y1 y2 sel) := by
  unfold grouped_ct
  rw [List.map_map]
  have h : ((fun g : Int × String × Option ℚ => (g.1, g.2.1)) ∘
      fun k : Int × String =>
        (k.1, k.2, meanOpt ((groupRows (df_filtered t y1 y2 sel) k).filterMap
          (·.meanTemp)))) = id := by
    funext k
    rfl
  rw [h, List.map_id]

theorem agg_sc_keys [DivisionRing α] (tf : α → α) (t : Table α) (y1 y2 : Int)
    (sel : List String) :
    (agg_sc tf t y1 y2 sel).map (fun g => (g.1, g.2.1)) =
      groupKeys (plot_df t y1 y2 sel) := by
  unfold agg_sc
  rw [List.map_map]
  have h : ((fun g : Int × String × Option α × Option α => (g.1, g.2.1)) ∘
      fun k : Int × String =>
        (k.1, k.2,
         meanOpt ((groupRows (plot_df t y1 y2 sel) k).filterMap (·.meanTemp)),
         meanOpt ((groupRows (plot_df t y1 y2 sel) k).filterMap
           fun r => r.co2.map tf))) = id := by
    funext k
    rfl
  rw [h, List.map_id]

/-- C6: both aggregation paths group the filtered frame by
`(Year, Income group)`, emit exactly one row per observed key, ordered
by year then income group, and each row carries the arithmetic mean of
the metric values of its group (the scatter path also the mean of the
display-transformed CO₂ values). -/
theorem grouped_mean_spec (tf : ℚ → ℚ) (t : Table ℚ) (y1 y2 : Int)
    (sel : List String) :
    (List.Sorted keyLe ((grouped_ct t y1 y2 sel).map fun g => (g.1, g.2.1)) ∧
      ((grouped_ct t y1 y2 sel).map fun g => (g.1, g.2.1)).Nodup) ∧
    (∀ k : Int × String,
      k ∈ (grouped_ct t y1 y2 sel).map (fun g => (g.1, g.2.1)) ↔
        ∃ r ∈ df_filtered t y1 y2 sel, r.year = k.1 ∧ r.income = k.2) ∧
    (∀ g ∈ grouped_ct t y1 y2 sel, ∀ vs : List ℚ,
      vs = ((df_filtered t y1 y2 sel).filter fun r =>
              decide (r.year = g.1 ∧ r.income = g.2.1)).filterMap (·.meanTemp) →
      vs ≠ [] → g.2.2 = some (vs.sum / (vs.length : ℚ))) ∧
    (List.Sorted keyLe ((agg_sc tf t y1 y2 sel).map fun g => (g.1, g.2.1)) ∧
      ((agg_sc tf t y1 y2 sel).map fun g => (g.1, g.2.1)).Nodup) ∧
    (∀ k : Int × String,
      k ∈ (agg_sc tf t y1 y2 sel).map (fun g => (g.1, g.2.1)) ↔
        ∃ r ∈ plot_df t y1 y2 sel, r.year = k.1 ∧ r.income = k.2) ∧
    (∀ g ∈ agg_sc tf t y1 y2 sel,
      (∀ vs : List ℚ,
        vs = ((plot_df t y1 y2 sel).filter fun r =>
                decide (r.year = g.1 ∧ r.income = g.2.1)).filterMap (·.meanTemp) →
        vs ≠ [] → g.2.2.1 = some (vs.sum / (vs.length : ℚ))) ∧
      (∀ ws : List ℚ,
        ws = ((plot_df t y1 y2 sel).filter fun r =>
                decide (r.year = g.1 ∧ r.income = g.2.1)).filterMap
                (fun r => r.co2.map tf) →
        ws ≠ [] → g.2.2.2 = some (ws.sum / (ws.length : ℚ)))) := by
  refine ⟨⟨?_, ?_⟩, ?_, ?_, ⟨?_, ?_⟩, ?_, ?_⟩
  · rw [grouped_ct_keys]
    exact groupKeys_sorted _
  · rw [grouped_ct_keys]
    exact groupKeys_nodup _
  · intro k
    rw [grouped_ct_keys]
    exact mem_groupKeys _ k
  · intro g hg vs hvs hne
    rcases List.mem_map.mp hg with ⟨k, -, rfl⟩
    have hX : vs = (groupRows (df_filtered t y1 y2 sel) k).filterMap (·.meanTemp) :=
      hvs
    show meanOpt ((groupRows (df_filtered t y1 y2 sel) k).filterMap (·.meanTemp)) =
      some (vs.sum / (vs.length : ℚ))
    rw [← hX]
    unfold meanOpt
    rw [if_neg fun h => hne (List.length_eq_zero.mp h)]
  · rw [agg_sc_keys]
    exact groupKeys_sorted _
  · rw [agg_sc_keys]
    exact groupKeys_nodup _
  · intro k
    rw [agg_sc_keys]
    exact mem_groupKeys _ k
  · intro g hg
    rcases List.mem_map.mp hg with ⟨k, -, rfl⟩
    constructor
    · intro vs hvs hne
      have hX : vs = (groupRows (plot_df t y1 y2 sel) k).filterMap (·.meanTemp) :=
        hvs
      show meanOpt ((groupRows (plot_df t y1 y2 sel) k).filterMap (·.meanTemp)) =
        some (vs.sum / (vs.length : ℚ))
      rw [← hX]
      unfold meanOpt
      rw [if_neg fun h => hne (List.length_eq_zero.mp h)]
    · intro ws hws hne
      have hX : ws = (groupRows (plot_df t y1 y2 sel) k).filterMap
          (fun r => r.co2.map tf) := hws
      show meanOpt ((groupRows (plot_df t y1 y2 sel) k).filterMap
          fun r => r.co2.map tf) = some (ws.sum / (ws.length : ℚ))
      rw [← hX]
      unfold meanOpt
      rw [if_neg fun h => hne (List.length_eq_zero.mp h)]

/-- Witness for C6 at the spec §8 example rows
[(2000,"Low",10),(2000,"Low",20),(2000,"High",5)]: the key (2000,"Low")
is observed, its mean is (10+20)/2, and the full aggregated table is
[(2000,"High",5),(2000,"Low",15)], ordered by year then income group. -/
theorem grouped_mean_spec_witness :
    ((2000, "Low") ∈ (grouped_ct tblAgg 2000 2000 ["A", "B", "C"]).map
        fun g => (g.1, g.2.1)) ∧
    (∃ g ∈ grouped_ct tblAgg 2000 2000 ["A", "B", "C"],
      (g.1, g.2.1) = ((2000 : Int), "Low") ∧
      g.2.2 = some (([10, 20] : List ℚ).sum / ((([10, 20] : List ℚ).length : ℚ)))) ∧
    grouped_ct tblAgg 2000 2000 ["A", "B", "C"] =
      [(2000, "High", some 5), (2000, "Low", some 15)] := by
  have hkeys := (grouped_mean_spec id tblAgg 2000 2000 ["A", "B", "C"]).2.1
  have hval := (grouped_mean_spec id tblAgg 2000 2000 ["A", "B", "C"]).2.2.1
  have hk : (2000, "Low") ∈ (grouped_ct tblAgg 2000 2000 ["A", "B", "C"]).map
      (fun g => (g.1, g.2.1)) :=
    (hkeys (2000, "Low")).mpr ⟨⟨"A", "Low", 2000, some 10, some 0⟩, by decide, rfl, rfl⟩
  refine ⟨hk, ?_, ?_⟩
  · rcases List.mem_map.mp hk with ⟨g, hg, hgk⟩
    have h1 : g.1 = 2000 := congrArg Prod.fst hgk
    have h2 : g.2.1 = "Low" := congrArg Prod.snd hgk
    refine ⟨g, hg, hgk, ?_⟩
    apply hval g hg [10, 20] ?_ (by decide)
    rw [h1, h2]
    decide
  · have hno : ¬ keyLe (2000, "Low") (2000, "High") := by
      simp [keyLe]
      decide
    simp +decide [grouped_ct, groupKeys, df_filtered, groupRows, meanOpt, tblAgg,
      windowed, List.insertionSort, List.orderedInsert, hno, List.filterMap_cons,
      List.filter_cons]
    norm_num

/-! ## Ordinary least squares (C7) -/

theorem sum_res (l : List (ℚ × ℚ)) (a b : ℚ) :
    (l.map fun p => p.2 - a * p.1 - b).sum =
      (l.map Prod.snd).sum - a * (l.map Prod.fst).sum - (l.length : ℚ) * b := by
  induction l with
  | nil => simp
  | cons p l ih =>
    simp only [List.map_cons, List.sum_cons, List.length_cons, ih]
    push_cast
    ring

theorem sum_resx (l : List (ℚ × ℚ)) (a b : ℚ) :
    (l.map fun p => (p.2 - a * p.1 - b) * p.1).sum =
      (l.map fun p => p.1 * p.2).sum - a * (l.map fun p => p.1 * p.1).sum -
        b * (l.map Prod.fst).sum := by
  induction l with
  | nil => simp
  | cons p l ih =>
    simp only [List.map_cons, List.sum_cons, ih]
    ring

theorem rss_expand (l : List (ℚ × ℚ)) (a b a0 b0 : ℚ) :
    rss a b l =
      rss a0 b0 l + (l.map fun p => ((a0 - a) * p.1 + (b0 - b)) ^ 2).sum +
        2 * ((a0 - a) * (l.map fun p => (p.2 - a0 * p.1 - b0) * p.1).sum +
          (b0 - b) * (l.map fun p => p.2 - a0 * p.1 - b0).sum) := by
  unfold rss
  induction l with
  | nil => simp
  | cons p l ih =>
    simp only [List.map_cons, List.sum_cons]
    rw [ih]
    ring

theorem sum_sq_nonneg (f : ℚ × ℚ → ℚ) (l : List (ℚ × ℚ)) :
    0 ≤ (l.map fun p => f p ^ 2).sum := by
  refine List.sum_nonneg ?_
  intro x hx
  rcases List.mem_map.mp hx with ⟨p, -, rfl⟩
  exact sq_nonneg _

theorem le_sum_of_nonneg {l : List ℚ} (h0 : ∀ x ∈ l, 0 ≤ x) {a : ℚ} (ha : a ∈ l) :
    a ≤ l.sum := by
  induction l with
  | nil => cases ha
  | cons b l ih =>
    rcases List.mem_cons.mp ha with rfl | ha2
    · have : 0 ≤ l.sum := List.sum_nonneg fun x hx => h0 x (List.mem_cons_of_mem _ hx)
      simp only [List.sum_cons]
      linarith
    · have hb : 0 ≤ b := h0 b (List.mem_cons_self b l)
      have := ih (fun x hx => h0 x (List.mem_cons_of_mem _ hx)) ha2
      simp only [List.sum_cons]
      linarith

theorem var_identity (l : List (ℚ × ℚ)) (m : ℚ) :
    (l.map fun p => (p.1 - m) ^ 2).sum =
      (l.map fun p => p.1 * p.1).sum - 2 * m * (l.map Prod.fst).sum +
        (l.length : ℚ) * m ^ 2 := by
  induction l with
  | nil => simp
  | cons p l ih =>
    simp only [List.map_cons, List.sum_cons, List.length_cons, ih]
    push_cast
    ring

theorem var_pos (l : List (ℚ × ℚ)) (h : ∃ p ∈ l, ∃ q ∈ l, p.1 ≠ q.1) :
    0 < (l.length : ℚ) * (l.map fun p => p.1 * p.1).sum -
      (l.map Prod.fst).sum * (l.map Prod.fst).sum := by
  rcases h with ⟨p, hp, q, hq, hpq⟩
  have hne : l ≠ [] := fun h0 => by rw [h0] at hp; cases hp
  have hn : (0 : ℚ) < l.length := by
    have := List.length_pos.mpr hne
    exact_mod_cast this
  set m : ℚ := (l.map Prod.fst).sum / (l.length : ℚ) with hm
  have key : (l.length : ℚ) * (l.map fun p => (p.1 - m) ^ 2).sum =
      (l.length : ℚ) * (l.map fun p => p.1 * p.1).sum -
        (l.map Prod.fst).sum * (l.map Prod.fst).sum := by
    rw [var_identity, hm]
    field_simp [ne_of_gt hn]
    ring
  rw [← key]
  have hne2 : p.1 ≠ m ∨ q.1 ≠ m := by
    by_contra hcon
    push_neg at hcon
    exact hpq (hcon.1.trans hcon.2.symm)
  have hterm : ∃ x ∈ l, 0 < (x.1 - m) ^ 2 := by
    rcases hne2 with h1 | h1
    · exact ⟨p, hp, sq_pos_iff.mpr (sub_ne_zero.mpr h1)⟩
    · exact ⟨q, hq, sq_pos_iff.mpr (sub_ne_zero.mpr h1)⟩
  rcases hterm with ⟨x, hx, hx2⟩
  have hmem : (x.1 - m) ^ 2 ∈ l.map fun p => (p.1 - m) ^ 2 :=
    List.mem_map_of_mem _ hx
  have hle : (x.1 - m) ^ 2 ≤ (l.map fun p => (p.1 - m) ^ 2).sum :=
    le_sum_of_nonneg (fun y hy => by
      rcases List.mem_map.mp hy with ⟨r, -, rfl⟩
      exact sq_nonneg _) hmem
  have hsum : 0 < (l.map fun p => (p.1 - m) ^ 2).sum := lt_of_lt_of_le hx2 hle
  positivity

/-- C7: when the paired observations contain two distinct x values, the
closed-form fit returns the (slope, intercept) pair minimizing the sum of
squared residuals of y = a·x + b over the observations. -/
theorem linfit_least_squares (l : List (ℚ × ℚ))
    (h : ∃ p ∈ l, ∃ q ∈ l, p.1 ≠ q.1) :
    ∀ a b : ℚ, rss (linfit l).1 (linfit l).2 l ≤ rss a b l := by
  intro a b
  have hvar := var_pos l h
  have hd : (l.length : ℚ) * (l.map fun p => p.1 * p.1).sum -
      (l.map Prod.fst).sum * (l.map Prod.fst).sum ≠ 0 := by linarith
  have hne : l ≠ [] := by
    rcases h with ⟨p, hp, -⟩
    exact fun h0 => by rw [h0] at hp; cases hp
  have hn : (l.length : ℚ) ≠ 0 := by
    have h1 : 0 < l.length := List.length_pos.mpr hne
    positivity
  obtain ⟨a0, ha0⟩ : ∃ v : ℚ,
      v = ((l.length : ℚ) * (l.map fun p => p.1 * p.2).sum -
            (l.map Prod.fst).sum * (l.map Prod.snd).sum) /
          ((l.length : ℚ) * (l.map fun p => p.1 * p.1).sum -
            (l.map Prod.fst).sum * (l.map Prod.fst).sum) := ⟨_, rfl⟩
  obtain ⟨b0, hb0⟩ : ∃ v : ℚ,
      v = ((l.map Prod.snd).sum - a0 * (l.map Prod.fst).sum) / (l.length : ℚ) :=
    ⟨_, rfl⟩
  have hfit : linfit l = (a0, b0) := by
    simp only [linfit]
    rw [if_neg hd, ← ha0, ← hb0]
  have eq2 : (l.map fun p => p.1 * p.2).sum - a0 * (l.map fun p => p.1 * p.1).sum -
      b0 * (l.map Prod.fst).sum = 0 := by
    rw [hb0, ha0]
    field_simp
    ring
  have eq1 : (l.map Prod.snd).sum - a0 * (l.map Prod.fst).sum -
      (l.length : ℚ) * b0 = 0 := by
    rw [hb0]
    field_simp
  have hexp := rss_expand l a b a0 b0
  rw [sum_res, sum_resx] at hexp
  have hq := sum_sq_nonneg (fun p => (a0 - a) * p.1 + (b0 - b)) l
  have hkey : rss a b l = rss a0 b0 l +
      (l.map fun p => ((a0 - a) * p.1 + (b0 - b)) ^ 2).sum := by
    rw [hexp, eq2, eq1]
    ring
  rw [hfit]
  show rss a0 b0 l ≤ rss a b l
  linarith

/-- Witness for C7: fitting the points (1,2),(2,4),(3,6) gives the
least-squares line, and its slope and intercept are exactly 2 and 0. -/
theorem linfit_least_squares_witness :
    (∀ a b : ℚ,
      rss (linfit [((1 : ℚ), (2 : ℚ)), (2, 4), (3, 6)]).1
          (linfit [((1 : ℚ), (2 : ℚ)), (2, 4), (3, 6)]).2
          [((1 : ℚ), (2 : ℚ)), (2, 4), (3, 6)] ≤
        rss a b [((1 : ℚ), (2 : ℚ)), (2, 4), (3, 6)]) ∧
    linfit [((1 : ℚ), (2 : ℚ)), (2, 4), (3, 6)] = (2, 0) := by
  constructor
  · exact linfit_least_squares _ ⟨(1, 2), by norm_num, (2, 4), by norm_num, by norm_num⟩
  · norm_num [linfit]

/-! ## Missing-value handling (C8) -/

/-- C8 counterexample: in `tblMiss` entity A's record has MeanTemp 7 but
no CO₂ value. The scatter aggregation drops the whole row
(`dropna(subset=["MeanTemp","CO2_kt"])`), so the (2000,"L") group's
MeanTemp mean is 1 (from B alone), not the claimed row-wise value
(7+1)/2 = 4: a record missing one metric does not contribute to the
other metric's mean in the scatter path. -/
theorem agg_sc_drops_crossmetric :
    ((agg_sc id tblMiss 2000 2000 ["A", "B"]).map fun g => g.2.2.1) = [some 1] ∧
      some ((1 : ℚ)) ≠ some (((7 : ℚ) + 1) / 2) := by
  constructor
  · simp +decide [agg_sc, plot_df, df_filtered, groupKeys, groupRows, meanOpt,
      tblMiss, windowed, List.insertionSort, List.orderedInsert,
      List.filterMap_cons, List.filter_cons]
  · norm_num

/-- C8 amended: missing metric values never error; the scatter/regression
frames drop a record missing either metric row-wise (so it contributes to
neither mean), while the line-path aggregation skips only the missing
temperatures of a group and a group with no observed temperature gets an
absent mean (`NaN`), not zero. -/
theorem missing_value_handling (t : Table ℚ) (y1 y2 : Int) (sel : List String) :
    (∀ r : Record ℚ, r ∈ plot_df t y1 y2 sel ↔
        r ∈ df_filtered t y1 y2 sel ∧ r.meanTemp.isSome ∧ r.co2.isSome) ∧
    (∀ r : Record ℚ, r ∈ reg_df t y1 y2 sel ↔
        r ∈ df_filtered t y1 y2 sel ∧ r.meanTemp.isSome ∧ r.co2.isSome) ∧
    (∀ g ∈ grouped_ct t y1 y2 sel,
      g.2.2 = meanOpt (((df_filtered t y1 y2 sel).filter fun r =>
        decide (r.year = g.1 ∧ r.income = g.2.1)).filterMap (·.meanTemp))) ∧
    (∀ g ∈ grouped_ct t y1 y2 sel,
      (((df_filtered t y1 y2 sel).filter fun r =>
        decide (r.year = g.1 ∧ r.income = g.2.1)).filterMap (·.meanTemp)) = [] →
      g.2.2 = none) := by
  have hval : ∀ g ∈ grouped_ct t y1 y2 sel,
      g.2.2 = meanOpt (((df_filtered t y1 y2 sel).filter fun r =>
        decide (r.year = g.1 ∧ r.income = g.2.1)).filterMap (·.meanTemp)) := by
    intro g hg
    rcases List.mem_map.mp hg with ⟨k, -, rfl⟩
    rfl
  refine ⟨?_, ?_, hval, ?_⟩
  · intro r
    simp [plot_df, List.mem_filter]
  · intro r
    simp [reg_df, List.mem_filter]
  · intro g hg hnil
    rw [hval g hg, hnil]
    rfl

/-- Witness for the amended C8: the record of entity A (temperature
observed, CO₂ missing) is excluded from the scatter frame, while the
line-path group mean over `tblMiss` still averages A's temperature
in: (7+1)/2 = 4. -/
theorem missing_value_handling_witness :
    (⟨"A", "L", 2000, some 7, none⟩ : Record ℚ) ∉ plot_df tblMiss 2000 2000 ["A", "B"] ∧
      grouped_ct tblMiss 2000 2000 ["A", "B"] = [(2000, "L", some 4)] := by
  constructor
  · intro hmem
    have h := ((missing_value_handling tblMiss 2000 2000 ["A", "B"]).1
      ⟨"A", "L", 2000, some 7, none⟩).mp hmem
    simp at h
  · simp +decide [grouped_ct, groupKeys, df_filtered, groupRows, meanOpt, tblMiss,
      windowed, List.insertionSort, List.orderedInsert, List.filterMap_cons,
      List.filter_cons]
    norm_num

/-! ## The use_log display transform (C9) -/

/-- C9 counterexample: on a one-row table with CO₂ = 1, the scatter
aggregation's output under the `use_log` transform (`log1p`, giving mean
log 2) differs from its output under the identity transform (mean 1),
because the mean is taken after the transform; so flipping `use_log`
changes the scatter-path aggregation output, not only the display. -/
theorem use_log_affects_agg_sc :
    agg_sc log1p tblLog 2000 2000 ["A"] ≠ agg_sc id tblLog 2000 2000 ["A"] := by
  intro hEq
  have h2 : ((agg_sc log1p tblLog 2000 2000 ["A"]).map fun g => g.2.2.2) =
      ((agg_sc id tblLog 2000 2000 ["A"]).map fun g => g.2.2.2) := by rw [hEq]
  simp +decide [agg_sc, plot_df, df_filtered, groupKeys, groupRows, meanOpt,
    tblLog, windowed, List.insertionSort, List.orderedInsert,
    List.filterMap_cons, List.filter_cons, log1p] at h2
  have hlog : Real.log 2 < 1 := by
    have h3 := Real.log_two_lt_d9
    norm_num at h3 ⊢
    linarith
  norm_num at h2
  linarith [h2, hlog]

/-- C9 amended: the display transform (all that `use_log` selects) has no
effect on the ranking, the mode decision, the selection, the line-path
aggregation, or the regression's slope and intercept, and in the
scatter aggregation it leaves the keys and the MeanTemp means unchanged;
only the aggregated transformed-CO₂ column depends on it. -/
theorem use_log_display_only (t : Table ℚ) (y1 y2 : Int) (sel : List String)
    (maxc : Nat) (auto : Bool) (f g : ℚ → ℚ) :
    (runDashboard t y1 y2 sel maxc auto f).rankPairs =
        (runDashboard t y1 y2 sel maxc auto g).rankPairs ∧
      (runDashboard t y1 y2 sel maxc auto f).categoryMode =
        (runDashboard t y1 y2 sel maxc auto g).categoryMode ∧
      (runDashboard t y1 y2 sel maxc auto f).selection =
        (runDashboard t y1 y2 sel maxc auto g).selection ∧
      (runDashboard t y1 y2 sel maxc auto f).groupedTemps =
        (runDashboard t y1 y2 sel maxc auto g).groupedTemps ∧
      (runDashboard t y1 y2 sel maxc auto f).fit =
        (runDashboard t y1 y2 sel maxc auto g).fit ∧
      ((runDashboard t y1 y2 sel maxc auto f).scatterAgg.map
          fun r => (r.1, r.2.1, r.2.2.1)) =
        ((runDashboard t y1 y2 sel maxc auto g).scatterAgg.map
          fun r => (r.1, r.2.1, r.2.2.1)) := by
  refine ⟨rfl, rfl, rfl, rfl, rfl, ?_⟩
  simp only [runDashboard, agg_sc, List.map_map]
  rfl

/-! ## Rank independence from the requested set (C10) -/

theorem windowed_idem (t : Table α) (y1 y2 : Int) :
    windowed (windowed t y1 y2) y1 y2 = windowed t y1 y2 := by
  simp [windowed, List.filter_filter, Bool.and_self]

theorem topN_nodup (t : Table ℚ) (y1 y2 : Int) (sel : List String) (maxc : Nat) :
    (topN t y1 y2 sel maxc).Nodup :=
  (topN_sublist t y1 y2 sel maxc).nodup (rankIndex_nodup t y1 y2)

/-- C10: the ranking reads only the year-windowed rows of the full table
(never the requested entity set), and hence the relative order of two
entities appearing in the per-entity selections of two different
requested entity sets is the same in both runs. -/
theorem rank_independent_of_selection (t : Table ℚ) (y1 y2 : Int) (maxc : Nat) :
    rank t y1 y2 = rank (windowed t y1 y2) y1 y2 ∧
    (∀ sel1 sel2 : List String, ∀ a b : String, a ≠ b →
      a ∈ topN t y1 y2 sel1 maxc → b ∈ topN t y1 y2 sel1 maxc →
      a ∈ topN t y1 y2 sel2 maxc → b ∈ topN t y1 y2 sel2 maxc →
      (topN t y1 y2 sel1 maxc).filter (fun x => decide (x = a ∨ x = b)) =
        (topN t y1 y2 sel2 maxc).filter (fun x => decide (x = a ∨ x = b))) := by
  constructor
  · unfold rank rankBase windowCountries entityScore entityRows
    simp only [windowed_idem]
  · intro sel1 sel2 a b hab ha1 hb1 ha2 hb2
    have key : ∀ sel : List String, a ∈ topN t y1 y2 sel maxc →
        b ∈ topN t y1 y2 sel maxc →
        (topN t y1 y2 sel maxc).filter (fun x => decide (x = a ∨ x = b)) =
          (rankIndex t y1 y2).filter (fun x => decide (x = a ∨ x = b)) := by
      intro sel ha hb
      have hsub : ((topN t y1 y2 sel maxc).filter
            (fun x => decide (x = a ∨ x = b))).Sublist
          ((rankIndex t y1 y2).filter (fun x => decide (x = a ∨ x = b))) :=
        (topN_sublist t y1 y2 sel maxc).filter _
      have hFnodup : ((rankIndex t y1 y2).filter
          (fun x => decide (x = a ∨ x = b))).Nodup :=
        (rankIndex_nodup t y1 y2).filter _
      have hTnodup : ((topN t y1 y2 sel maxc).filter
          (fun x => decide (x = a ∨ x = b))).Nodup :=
        (topN_nodup t y1 y2 sel maxc).filter _
      have hmemA : a ∈ (topN t y1 y2 sel maxc).filter
          (fun x => decide (x = a ∨ x = b)) :=
        List.mem_filter.mpr ⟨ha, by simp⟩
      have hmemB : b ∈ (topN t y1 y2 sel maxc).filter
          (fun x => decide (x = a ∨ x = b)) :=
        List.mem_filter.mpr ⟨hb, by simp⟩
      have hge : 2 ≤ ((topN t y1 y2 sel maxc).filter
          (fun x => decide (x = a ∨ x = b))).length := by
        rw [← List.toFinset_card_of_nodup hTnodup]
        have hpair : ({a, b} : Finset String) ⊆
            ((topN t y1 y2 sel maxc).filter
              (fun x => decide (x = a ∨ x = b))).toFinset := by
          intro x hx
          rcases Finset.mem_insert.mp hx with rfl | hx2
          · exact List.mem_toFinset.mpr hmemA
          · rw [Finset.mem_singleton] at hx2
            subst hx2
            exact List.mem_toFinset.mpr hmemB
        calc 2 = ({a, b} : Finset String).card := (Finset.card_pair hab).symm
          _ ≤ _ := Finset.card_le_card hpair
      have hle2 : ((rankIndex t y1 y2).filter
          (fun x => decide (x = a ∨ x = b))).length ≤ 2 := by
        have hsub2 : ((rankIndex t y1 y2).filter
            (fun x => decide (x = a ∨ x = b))) ⊆ [a, b] := by
          intro x hx
          have h := List.of_mem_filter hx
          rcases of_decide_eq_true h with rfl | rfl <;> simp
        have := (List.subperm_of_subset hFnodup hsub2).length_le
        simpa using this
      exact hsub.eq_of_length (by
        have h1 := hsub.length_le
        omega)
    rw [key sel1 ha1 hb1, key sel2 ha2 hb2]

/-- Witness for C10 at the spec §8 dataset: the runs requesting
["A","B"] and ["B","A"] select A and B in the same relative order. -/
theorem rank_independent_of_selection_witness :
    (topN tblSpec 2000 2002 ["A", "B"] 8).filter
        (fun x => decide (x = "A" ∨ x = "B")) =
      (topN tblSpec 2000 2002 ["B", "A"] 8).filter
        (fun x => decide (x = "A" ∨ x = "B")) :=
  (rank_independent_of_selection tblSpec 2000 2002 8).2 ["A", "B"] ["B", "A"]
    "A" "B" (by decide)
    (mem_topN_of_lt tblSpec 2000 2002 ["A", "B"] 8 (by decide) (by decide)
      a_mem_rankIndex_tblSpec)
    (mem_topN_of_lt tblSpec 2000 2002 ["A", "B"] 8 (by decide) (by decide)
      b_mem_rankIndex_tblSpec)
    (mem_topN_of_lt tblSpec 2000 2002 ["B", "A"] 8 (by decide) (by decide)
      a_mem_rankIndex_tblSpec)
    (mem_topN_of_lt tblSpec 2000 2002 ["B", "A"] 8 (by decide) (by decide)
      b_mem_rankIndex_tblSpec)

end Climate
